import Mathlib

/-!
Verification model of the go6502 repository (peter-mount/go6502).

Shallow embedding conventions:
* Go bytes and uint16 values are modelled as `Nat`; wraparound is written
  explicitly as `% 65536` at the points where the Go code performs a
  conversion to `uint16`.  ACIA register operations never overflow a byte,
  so no masking is inserted there.
* Calls into an attached `SerialPeripheral` (an interface value in Go) are
  modelled by passing the peripheral's response for that single call as an
  extra argument (`ReadResult` / `WriteResult`); the controller code itself
  is translated verbatim from `acia6551.go`.
* Fallible Go code (`error` returns, `panic`) is modelled with `Except`.
-/

/- ================= acia6551 (serial controller) ================= -/

/-- Result of one `SerialPeripheral.Read()` call: `(bool, byte, error)`.
`read = true` if `data` holds a value; `err = true` if a non-nil error
was returned. -/
structure ReadResult where
  read : Bool
  data : Nat
  err : Bool
deriving Repr, DecidableEq

/-- Result of one `SerialPeripheral.Write(byte)` call: `(bool, error)`. -/
structure WriteResult where
  written : Bool
  err : Bool
deriving Repr, DecidableEq

/-- Register offsets (`iota` block in acia6551.go). -/
def aciaData : Nat := 0

def aciaStatus : Nat := 1

def aciaCommand : Nat := 2

def aciaControl : Nat := 3

/-- Peripheral capability constants from acia6551.go. -/
def Nop : Nat := 0

def Read : Nat := 1

def Write : Nat := 2

def BiDirectional : Nat := Read ||| Write

/-- State of the 6551 serial controller (struct `Acia6551`). -/
structure Acia6551 where
  rx : Nat
  tx : Nat
  commandData : Nat
  controlData : Nat
  rxFull : Bool
  txEmpty : Bool
  rxIrqEnabled : Bool
  txIrqEnabled : Bool
  overrun : Bool
  capabilities : Nat
deriving Repr, DecidableEq

def Acia6551.setControl (a : Acia6551) (data : Nat) : Acia6551 :=
  { a with controlData := data }

def Acia6551.setCommand (a : Acia6551) (data : Nat) : Acia6551 :=
  { a with
    commandData := data
    rxIrqEnabled := (data &&& 0x02) != 0
    txIrqEnabled := ((data &&& 0x04) != 0) && ((data &&& 0x08) != 1) }

def Acia6551.statusRegister (a : Acia6551) : Nat :=
  let status := 0
  let status := if a.rxFull then status ||| 0x08 else status
  let status := if a.txEmpty then status ||| 0x10 else status
  let status := if a.overrun then status ||| 0x04 else status
  status

/-- Model of `Acia6551.Reset`: emulates a hardware reset. -/
def Acia6551.Reset (a : Acia6551) : Acia6551 :=
  (({ a with
      rx := 0
      rxFull := false
      tx := 0
      txEmpty := true
      rxIrqEnabled := false
      txIrqEnabled := false
      overrun := false }).setControl 0).setCommand 0

/-- Model of `rxRead`: read of the data register.  `presp` is the response the
attached peripheral would give to the single `peripheral.Read()` call (it
is consulted only when that call actually happens).  Returns the new
controller state and the byte produced. -/
def Acia6551.rxRead (a : Acia6551) (presp : ReadResult) : Acia6551 × Nat :=
  let a :=
    if !a.rxFull && (a.capabilities &&& Read) == Read then
      -- the error returned by the peripheral is ignored (TODO in source)
      if presp.read then { a with rx := presp.data } else a
    else a
  let a := { a with overrun := false, rxFull := false }
  (a, a.rx)

/-- Model of `txWrite`: write of the data register; `presp` is the response of the
single `peripheral.Write(data)` call. -/
def Acia6551.txWrite (a : Acia6551) (data : Nat) (presp : WriteResult) : Acia6551 :=
  if (a.capabilities &&& Write) == Write then
    { a with tx := data, txEmpty := presp.written || presp.err }
  else a

/-- Model of `Acia6551.Read`: dispatch on the register offset.  The `default` case
of the Go switch panics; that is the `.error` branch. -/
def Acia6551.Read (a : Acia6551) (address : Nat) (presp : ReadResult) :
    Except String (Acia6551 × Nat) :=
  if address == aciaData then .ok (a.rxRead presp)
  else if address == aciaStatus then .ok (a, a.statusRegister)
  else if address == aciaCommand then .ok (a, a.commandData)
  else if address == aciaControl then .ok (a, a.controlData)
  else .error "read not handled by Acia6551"

/-- Model of `Acia6551.Write`: dispatch on the register offset (a switch with no
default case: other offsets do nothing). -/
def Acia6551.Write (a : Acia6551) (address : Nat) (data : Nat) (presp : WriteResult) :
    Acia6551 :=
  if address == aciaData then a.txWrite data presp
  else if address == aciaStatus then a.Reset
  else if address == aciaCommand then a.setCommand data
  else if address == aciaControl then a.setControl data
  else a

/- ================= Go string / strconv helpers ================= -/

/-- Character codes of a string (Go iterates the bytes of the string; for
the ASCII inputs the debugger deals in, byte values and code points
coincide). -/
def strCodes (s : String) : List Nat := s.data.map Char.toNat

def codesToStr (l : List Nat) : String := ⟨l.map Char.ofNat⟩

/-- Model of `strings.Fields` helper: ASCII white space. -/
def isSpaceCode (c : Nat) : Bool :=
  c == 32 || c == 9 || c == 10 || c == 13 || c == 11 || c == 12

/-- Model of `strings.Fields`: split around runs of white space. -/
def fieldsAux : List Nat → List Nat → List (List Nat)
  | [], cur => if cur.isEmpty then [] else [cur.reverse]
  | c :: cs, cur =>
    if isSpaceCode c then
      if cur.isEmpty then fieldsAux cs [] else cur.reverse :: fieldsAux cs []
    else fieldsAux cs (c :: cur)

def goFields (s : String) : List (List Nat) := fieldsAux (strCodes s) []

/-- Model of `strings.ToLower` restricted to ASCII letters. -/
def toLowerCodes (l : List Nat) : List Nat :=
  l.map fun c => if 65 ≤ c ∧ c ≤ 90 then c + 32 else c

/-- Model of `strings.ToUpper` restricted to ASCII letters. -/
def toUpperCodes (l : List Nat) : List Nat :=
  l.map fun c => if 97 ≤ c ∧ c ≤ 122 then c - 32 else c

/-- Model of `strings.Replace(s, "$", "0x", 1)`: replace the first `'$'` (code 36)
by `"0x"` (codes 48, 120). -/
def replaceDollarOnce : List Nat → List Nat
  | [] => []
  | c :: cs => if c == 36 then 48 :: 120 :: cs else c :: replaceDollarOnce cs

/-- Errors of `strconv.ParseUint`: `invalid` is Go's invalid-input
error, `range` its ErrRange (value out of range). -/
inductive GoError where
  | invalid
  | range
deriving Repr, DecidableEq

/-- Digit value of a character in `strconv.ParseUint`'s conversion loop
(`'0'..'9'` directly, letters case-insensitively as 10..35). -/
def goDigitVal (c : Nat) : Option Nat :=
  if 48 ≤ c ∧ c ≤ 57 then some (c - 48)
  else if 97 ≤ (c ||| 32) ∧ (c ||| 32) ≤ 122 then some ((c ||| 32) - 87)
  else none

/-- The conversion loop of `strconv.ParseUint` (base-0 call sites, so the
underscore skip branch is always live).  Accumulates the value in `n`;
`us` records whether an underscore was seen. -/
def parseDigits (base maxVal : Nat) : List Nat → Nat → Bool → Except GoError (Nat × Bool)
  | [], n, us => .ok (n, us)
  | c :: cs, n, us =>
    if c == 95 then parseDigits base maxVal cs n true
    else
      match goDigitVal c with
      | none => .error .invalid
      | some d =>
        if base ≤ d then .error .invalid
        else if maxVal < n * base + d then .error .range
        else parseDigits base maxVal cs (n * base + d) us

/-- Test `len(s) >= 3`, kept structural so it reduces on partially known
lists. -/
def atLeastThree : List Nat → Bool
  | _ :: _ :: _ :: _ => true
  | _ => false

/-- Scanner of `strconv.underscoreOK`; `saw` is the class of the previous
character (94 `'^'` start, 48 digit/base marker, 95 underscore, 33 other). -/
def underscoreScan (hex : Bool) : List Nat → Nat → Bool
  | [], saw => saw != 95
  | c :: cs, saw =>
    if (48 ≤ c ∧ c ≤ 57) ∨ (hex ∧ 97 ≤ (c ||| 32) ∧ (c ||| 32) ≤ 102) then
      underscoreScan hex cs 48
    else if c == 95 then
      if saw != 48 then false else underscoreScan hex cs 95
    else if saw == 95 then false
    else underscoreScan hex cs 33

/-- Model of `strconv.underscoreOK`: underscores may appear only between digits or
between a base marker and a digit. -/
def underscoreOK (s : List Nat) : Bool :=
  let s1 :=
    match s with
    | c :: cs => if c == 45 || c == 43 then cs else s
    | [] => s
  match s1 with
  | c0 :: c1 :: rest =>
    if c0 == 48 && ((c1 ||| 32) == 98 || (c1 ||| 32) == 111 || (c1 ||| 32) == 120) then
      underscoreScan ((c1 ||| 32) == 120) rest 48
    else underscoreScan false s1 94
  | _ => underscoreScan false s1 94

/-- Model of `strconv.ParseUint(s, 0, bitSize)` on the code list of `s`, with
`maxVal = 2^bitSize - 1`.  Base 0: a `0b`/`0o`/`0x` marker selects the
base, a bare leading `0` selects octal, otherwise decimal. -/
def goParseUint (s0 : List Nat) (maxVal : Nat) : Except GoError Nat :=
  match s0 with
  | [] => .error .invalid
  | c0 :: rest =>
    let bd : Nat × List Nat :=
      if c0 == 48 then
        match rest with
        | c1 :: rest2 =>
          if atLeastThree s0 && (c1 ||| 32) == 98 then (2, rest2)
          else if atLeastThree s0 && (c1 ||| 32) == 111 then (8, rest2)
          else if atLeastThree s0 && (c1 ||| 32) == 120 then (16, rest2)
          else (8, rest)
        | [] => (8, [])
      else (10, s0)
    match parseDigits bd.1 maxVal bd.2 0 false with
    | .error e => .error e
    | .ok (n, us) => if us && !underscoreOK s0 then .error .invalid else .ok n

/- ================= debugger ================= -/

/-- Modelled from the spec: the `cpu` package is not under src/.  Per §3 a
decoded `Instruction` carries a mnemonic name (`in.Name()`) and its total
byte length (`in.Bytes`); these are the only parts the debugger's
breakpoint logic consumes. -/
structure Instruction where
  name : String
  Bytes : Nat
deriving Repr, DecidableEq

/-- Modelled from the spec: the `cpu` package is not under src/.  Per §3
the CPU registers read by the debugger are `PC` (16-bit) and the 8-bit
`AC`/`X`/`Y`; `bus` is the address bus's read function used by the `read`
commands. -/
structure CpuState where
  PC : Nat
  AC : Nat
  X : Nat
  Y : Nat
  bus : Nat → Nat

/-- Errors produced by `Debugger.parseUint16` / `parseUint8`: the
ambiguous-symbol error (`fmt.Errorf("Multiple addresses for %s: %v", ...)`)
or an error from `strconv.ParseUint`. -/
inductive ParseErr where
  | ambiguous (s : String) (addrs : List Nat)
  | num (e : GoError)
deriving Repr, DecidableEq

/-- Debugger state (struct `Debugger`).  `symbols` is the label→addresses
lookup `d.symbols.addressesFor`; the `debugSymbols` implementation is not
under src/, so (per the spec's §3 symbol-table model) it is carried as an
arbitrary lookup function. -/
structure Debugger where
  cpu : CpuState
  symbols : String → List Nat
  run : Bool
  breakAddress : Bool
  breakAddressValue : Nat
  breakInstruction : String
  breakRegA : Bool
  breakRegAValue : Nat
  breakRegX : Bool
  breakRegXValue : Nat
  breakRegY : Bool
  breakRegYValue : Nat

/-- Command identifiers (`iota` block in debugger.go). -/
def debugCmdNone : Nat := 0

def debugCmdBreakAddress : Nat := 1

def debugCmdBreakInstruction : Nat := 2

def debugCmdBreakRegister : Nat := 3

def debugCmdContinue : Nat := 4

def debugCmdExit : Nat := 5

def debugCmdHelp : Nat := 6

def debugCmdInvalid : Nat := 7

def debugCmdNext : Nat := 8

def debugCmdRead : Nat := 9

def debugCmdRead16 : Nat := 10

def debugCmdRead32 : Nat := 11

def debugCmdStep : Nat := 12

/-- Model of `Debugger.parseUint16`: `.` is the current PC; a symbol with exactly
one address resolves to it; several addresses are an error; otherwise
`$` is rewritten to `0x` and `strconv.ParseUint(s, 0, 16)` runs. -/
def Debugger.parseUint16 (d : Debugger) (s : String) : Except ParseErr Nat :=
  if s = "." then .ok d.cpu.PC
  else
    match d.symbols s with
    | [a] => .ok a
    | a :: b :: l => .error (.ambiguous s (a :: b :: l))
    | [] =>
      match goParseUint (replaceDollarOnce (strCodes s)) 65535 with
      | .error e => .error (.num e)
      | .ok n => .ok n

/-- Model of `Debugger.parseUint8`: `$`→`0x` rewrite then
`strconv.ParseUint(s, 0, 8)`. -/
def Debugger.parseUint8 (_d : Debugger) (s : String) : Except ParseErr Nat :=
  match goParseUint (replaceDollarOnce (strCodes s)) 255 with
  | .error e => .error (.num e)
  | .ok n => .ok n

/-- The command-string switch of `getCommand` (applied to the lower-cased
first field of the input). -/
def commandIdFor : String → Nat
  | "" => debugCmdNone
  | "break-address" | "break-addr" | "ba" => debugCmdBreakAddress
  | "break-instruction" | "bi" => debugCmdBreakInstruction
  | "break-register" | "break-reg" | "br" => debugCmdBreakRegister
  | "continue" | "c" => debugCmdContinue
  | "exit" | "quit" | "q" => debugCmdExit
  | "help" | "h" | "?" => debugCmdHelp
  | "next" | "n" => debugCmdNext
  | "read" => debugCmdRead
  | "read16" => debugCmdRead16
  | "read32" => debugCmdRead32
  | "step" | "st" | "s" => debugCmdStep
  | _ => debugCmdInvalid

/-- A parsed command (struct `cmd`). -/
structure Cmd where
  id : Nat
  input : String
  arguments : List String
deriving Repr

/-- The field-splitting and classification part of `getCommand` on one
input line (the queue / liner plumbing and the repeat-last-command rule
are orthogonal to the claims). -/
def mkCmd (input : String) : Cmd :=
  let fields := goFields input
  let cmdString := codesToStr (toLowerCodes (fields.headD []))
  let arguments := (fields.drop 1).map codesToStr
  { id := commandIdFor cmdString, input := input, arguments := arguments }

/-- Run-time panics the debugger command handlers can raise. -/
inductive GoPanic where
  | err (e : ParseErr)
  | indexRange
  | invalidRegister
  | unknownCode
deriving Repr, DecidableEq

/-- Model of `commandBreakAddress`: `panic(err)` on a parse error. -/
def Debugger.commandBreakAddress (d : Debugger) (arg : String) :
    Except GoPanic Debugger :=
  match d.parseUint16 arg with
  | .error e => .error (.err e)
  | .ok addr => .ok { d with breakAddress := true, breakAddressValue := addr }

/-- Model of `commandBreakRegister`: selects the register (panicking on anything
else), then parses the value (`panic(err)` on failure).  The register's
enable flag is set before the value parse, but a panic kills the process,
so the state is returned only on success. -/
def Debugger.commandBreakRegister (d : Debugger) (regStr valueStr : String) :
    Except GoPanic Debugger :=
  let sel : Option Nat :=
    match regStr with
    | "A" | "a" | "AC" | "ac" => some 0
    | "X" | "x" => some 1
    | "Y" | "y" => some 2
    | _ => none
  match sel with
  | none => .error .invalidRegister
  | some r =>
    let d :=
      if r == 0 then { d with breakRegA := true }
      else if r == 1 then { d with breakRegX := true }
      else { d with breakRegY := true }
    match d.parseUint8 valueStr with
    | .error e => .error (.err e)
    | .ok v =>
      .ok (if r == 0 then { d with breakRegAValue := v }
           else if r == 1 then { d with breakRegXValue := v }
           else { d with breakRegYValue := v })

/-- Model of `commandNext`: breakpoint at `uint16(d.cpu.PC + uint16(in.Bytes))`
and free-run. -/
def Debugger.commandNext (d : Debugger) (inst : Instruction) : Debugger :=
  let addr := (d.cpu.PC + inst.Bytes % 65536) % 65536
  { d with breakAddress := true, breakAddressValue := addr, run := true }

/-- Model of `checkRegBreakpoint` (the `regStr` argument is only printed; the
source's `on` parameter is renamed `isOn`, `on` being reserved). -/
def Debugger.checkRegBreakpoint (d : Debugger) (_regStr : String) (isOn : Bool)
    (expect actual : Nat) : Debugger :=
  if isOn && actual == expect then { d with run := false } else d

/-- Model of `doBreakpoints`: evaluated by the monitor hook before every
instruction. -/
def Debugger.doBreakpoints (d : Debugger) (inst : Instruction) : Debugger :=
  let d := if inst.name == d.breakInstruction then { d with run := false } else d
  let d :=
    if d.breakAddress && d.cpu.PC == d.breakAddressValue then { d with run := false }
    else d
  let d := d.checkRegBreakpoint "A" d.breakRegA d.breakRegAValue d.cpu.AC
  let d := d.checkRegBreakpoint "X" d.breakRegX d.breakRegXValue d.cpu.X
  let d := d.checkRegBreakpoint "Y" d.breakRegY d.breakRegYValue d.cpu.Y
  d

/-- Result of one `commandLoop` dispatch: a normal return (with the
release flag), an escaped panic, or an exit-status send on the CPU's halt
channel. -/
inductive LoopResult where
  | normal (d : Debugger) (release : Bool)
  | panicked (p : GoPanic)
  | exited (status : Int)

/-- The dispatch switch of `commandLoop` for one already-read command.
Argument accesses mirror the unchecked `cmd.arguments[i]` indexing (a
missing argument is an index-out-of-range panic). -/
def Debugger.commandLoopStep (d : Debugger) (inst : Instruction) (c : Cmd) :
    LoopResult :=
  if c.id == debugCmdBreakAddress then
    match c.arguments with
    | [] => .panicked .indexRange
    | a :: _ =>
      match d.commandBreakAddress a with
      | .error p => .panicked p
      | .ok d2 => .normal d2 false
  else if c.id == debugCmdBreakInstruction then
    match c.arguments with
    | [] => .panicked .indexRange
    | a :: _ =>
      .normal { d with breakInstruction := codesToStr (toUpperCodes (strCodes a)) } false
  else if c.id == debugCmdBreakRegister then
    match c.arguments with
    | r :: v :: _ =>
      match d.commandBreakRegister r v with
      | .error p => .panicked p
      | .ok d2 => .normal d2 false
    | _ => .panicked .indexRange
  else if c.id == debugCmdContinue then .normal { d with run := true } true
  else if c.id == debugCmdExit then .exited 0
  else if c.id == debugCmdHelp then .normal d false
  else if c.id == debugCmdNext then .normal (d.commandNext inst) true
  else if c.id == debugCmdNone then .normal d false
  else if c.id == debugCmdRead || c.id == debugCmdRead16 || c.id == debugCmdRead32 then
    match c.arguments with
    | [] => .panicked .indexRange
    | a :: _ =>
      match d.parseUint16 a with
      | .error e => .panicked (.err e)
      | .ok _ => .normal d false
  else if c.id == debugCmdStep then .normal d true
  else if c.id == debugCmdInvalid then .normal d false
  else .panicked .unknownCode

/- ================= machine ================= -/

/-- Observable state of `Machine.Run` (machine.go) and its two
goroutines: the run loop `for running { m.cpu.Step() }` and the observer
`go func() { exitStatus := <-m.exitChan; ...; running = false }()`.
`sent` records that a halt value has been placed on (and, the channel
being unbuffered, received from) `exitChan`; `obsDone` that the observer
has executed its unsynchronized `running = false` write; `steps` counts
issued `cpu.Step()` calls; `stopped` that the loop has exited. -/
structure RunState where
  running : Bool
  sent : Bool
  obsDone : Bool
  steps : Nat
  stopped : Bool
deriving Repr, DecidableEq

/-- State of `Machine.Run` right after `m.cpu.Reset()`: loop live, nothing sent. -/
def runInit : RunState :=
  { running := true, sent := false, obsDone := false, steps := 0, stopped := false }

/-- Interleaving semantics of `Machine.Run`: one transition is one action
of either goroutine (or of the component sending on the halt channel).
`stepLoop` is one loop iteration that reads `running = true` and calls
`cpu.Step()`; `exitLoop` reads `running = false` and leaves the loop;
`deliver` is the rendezvous that places the exit status on `exitChan`;
`observe` is the observer's subsequent `running = false` write. -/
inductive RunTrans : RunState → RunState → Prop where
  | stepLoop (s : RunState) : s.stopped = false → s.running = true →
      RunTrans s { s with steps := s.steps + 1 }
  | exitLoop (s : RunState) : s.stopped = false → s.running = false →
      RunTrans s { s with stopped := true }
  | deliver (s : RunState) : s.sent = false →
      RunTrans s { s with sent := true }
  | observe (s : RunState) : s.sent = true → s.obsDone = false →
      RunTrans s { s with obsDone := true, running := false }

/-- RAM chip descriptor from the YAML hardware list (machine/ram.go). -/
structure RamChip where
  Size : Nat
deriving Repr, DecidableEq

/-- Modelled from the spec: the `memory` package is not under src/.
`ram.go` returns the zero value `&memory.Ram{}`, a RAM device whose size
is not taken from the configuration (the spec's §2 "single addressable
device"); it is represented opaquely. -/
inductive MemoryDevice where
  | defaultRam
deriving Repr, DecidableEq

/-- Model of `RamChip.Configure`: rejects sizes below 1K, otherwise returns the
fixed `&memory.Ram{}` (the `FIXME make ram size configurable` path). -/
def RamChip.Configure (c : RamChip) : Except String MemoryDevice :=
  if c.Size < 1024 then .error ("Invalid ram size " ++ toString c.Size)
  else .ok MemoryDevice.defaultRam

/- ================= concrete states used in witnesses ================= -/

/-- Decimal-digit test used in statements about numeric parsing: the
character is a digit of the given base in `strconv.ParseUint`'s loop. -/
def isBaseDigit (base c : Nat) : Bool :=
  match goDigitVal c with
  | some d => decide (d < base)
  | none => false

/-- The value `strconv`'s conversion loop accumulates over a digit list. -/
def digitsVal (base : Nat) : List Nat → Nat → Nat
  | [], n => n
  | c :: cs, n => digitsVal base cs (n * base + (goDigitVal c).getD 0)

/-- An ACIA whose peripheral can read, with stale `overrun` set. -/
def aciaW : Acia6551 :=
  { rx := 0, tx := 0, commandData := 0, controlData := 0, rxFull := false,
    txEmpty := true, rxIrqEnabled := false, txIrqEnabled := false,
    overrun := true, capabilities := Read }

/-- An ACIA whose peripheral can write. -/
def aciaWr : Acia6551 :=
  { rx := 0, tx := 0, commandData := 0, controlData := 0, rxFull := false,
    txEmpty := false, rxIrqEnabled := false, txIrqEnabled := false,
    overrun := false, capabilities := Write }

/-- An ACIA with a no-op peripheral. -/
def aciaNoCap : Acia6551 :=
  { aciaWr with capabilities := Nop }

def cpuInit : CpuState :=
  { PC := 4096, AC := 0, X := 0, Y := 0, bus := fun _ => 0 }

/-- A freshly created debugger (no symbols, no breakpoints) at PC 0x1000. -/
def dInit : Debugger :=
  { cpu := cpuInit, symbols := fun _ => [], run := false,
    breakAddress := false, breakAddressValue := 0, breakInstruction := "",
    breakRegA := false, breakRegAValue := 0, breakRegX := false,
    breakRegXValue := 0, breakRegY := false, breakRegYValue := 0 }

/-- A debugger with a unique symbol `uni ↦ 7` and an ambiguous symbol
`amb ↦ {1, 2}`. -/
def dSym : Debugger :=
  { dInit with
    symbols := fun s => if s = "uni" then [7] else if s = "amb" then [1, 2] else [] }

/-- Command `next` issued at PC 0x1000 on a 3-byte JSR. -/
def dStepOver : Debugger := dInit.commandNext ⟨"JSR", 3⟩

/-- The hook fires the installed breakpoint the first time PC reaches
0x1003. -/
def dFire1 : Debugger :=
  ({ dStepOver with cpu := { dStepOver.cpu with PC := 4099 } }).doBreakpoints ⟨"LDA", 2⟩

/-- After a `continue`, a later pass over 0x1003 hits the hook again. -/
def dFire2 : Debugger :=
  ({ dFire1 with run := true }).doBreakpoints ⟨"LDA", 2⟩

/- ================= helper lemmas ================= -/

theorem and_eight_ne_one (d : Nat) : d &&& 8 ≠ 1 := by
  intro h
  have h0 := congrArg (fun n => Nat.testBit n 0) h
  simp only [Nat.testBit_and] at h0
  rw [show Nat.testBit 8 0 = false from by decide, Bool.and_false] at h0
  rw [show Nat.testBit 1 0 = true from by decide] at h0
  exact Bool.noConfusion h0

theorem checkReg_breakAddress (d : Debugger) (s : String) (b : Bool) (e x : Nat) :
    (d.checkRegBreakpoint s b e x).breakAddress = d.breakAddress := by
  unfold Debugger.checkRegBreakpoint
  split <;> rfl

theorem checkReg_breakAddressValue (d : Debugger) (s : String) (b : Bool) (e x : Nat) :
    (d.checkRegBreakpoint s b e x).breakAddressValue = d.breakAddressValue := by
  unfold Debugger.checkRegBreakpoint
  split <;> rfl

theorem checkReg_run_false (d : Debugger) (s : String) (b : Bool) (e x : Nat)
    (h : d.run = false) : (d.checkRegBreakpoint s b e x).run = false := by
  unfold Debugger.checkRegBreakpoint
  split
  · rfl
  · exact h

/- ================= claims ================= -/

/-- Claim C5: writing any byte value to the serial controller's status
offset (offset 1) fully resets the controller: afterwards `rxFull=false`,
`txEmpty=true`, `overrun=false`, both IRQ-enable flags are false, and the
rx/tx bytes and command/control registers are zero, independent of the
value written. -/
theorem claim_C5_status_write_resets (a : Acia6551) (data : Nat) (presp : WriteResult) :
    (a.Write aciaStatus data presp).rxFull = false ∧
    (a.Write aciaStatus data presp).txEmpty = true ∧
    (a.Write aciaStatus data presp).overrun = false ∧
    (a.Write aciaStatus data presp).rxIrqEnabled = false ∧
    (a.Write aciaStatus data presp).txIrqEnabled = false ∧
    (a.Write aciaStatus data presp).rx = 0 ∧
    (a.Write aciaStatus data presp).tx = 0 ∧
    (a.Write aciaStatus data presp).commandData = 0 ∧
    (a.Write aciaStatus data presp).controlData = 0 :=
  ⟨rfl, rfl, rfl, rfl, rfl, rfl, rfl, rfl, rfl⟩

/-- Claim C9: a write to the command register sets
`rxIrqEnabled = (data & 0x02) ≠ 0` and `txIrqEnabled = (data & 0x04) ≠ 0`
independent of bit 3, because the extra guard `(data & 0x08) != 1` can
never fail: `data & 0x08` is never 1. -/
theorem claim_C9_command_irq_bits (a : Acia6551) (data : Nat) :
    (a.setCommand data).rxIrqEnabled = ((data &&& 0x02) != 0) ∧
    (a.setCommand data).txIrqEnabled = ((data &&& 0x04) != 0) ∧
    (data &&& 0x08) ≠ 1 := by
  refine ⟨rfl, ?_, and_eight_ne_one data⟩
  show (((data &&& 0x04) != 0) && ((data &&& 0x08) != 1)) = ((data &&& 0x04) != 0)
  have h : ((data &&& 0x08) != 1) = true := by
    simp only [bne_iff_ne, ne_eq]
    exact and_eight_ne_one data
  rw [h, Bool.and_true]

/-- Claim C6: every read of the data register leaves `overrun = false` and
`rxFull = false`, unconditionally; and when the peripheral is actually
consulted and supplies a byte, that byte is the value returned. -/
theorem claim_C6_data_read_clears_flags (a : Acia6551) (presp : ReadResult) :
    (a.rxRead presp).1.overrun = false ∧
    (a.rxRead presp).1.rxFull = false ∧
    (a.rxFull = false → (a.capabilities &&& Read) = Read → presp.read = true →
      (a.rxRead presp).2 = presp.data) := by
  refine ⟨rfl, rfl, ?_⟩
  intro h1 h2 h3
  simp [Acia6551.rxRead, h1, h2, h3]

theorem claim_C6_witness :
    (aciaW.rxRead ⟨true, 42, false⟩).1.overrun = false ∧
    (aciaW.rxRead ⟨true, 42, false⟩).1.rxFull = false ∧
    (aciaW.rxRead ⟨true, 42, false⟩).2 = 42 := by
  obtain ⟨h1, h2, h3⟩ := claim_C6_data_read_clears_flags aciaW ⟨true, 42, false⟩
  exact ⟨h1, h2, h3 rfl rfl rfl⟩

/-- Claim C7: when the peripheral has write capability, a data-register
write forwards the byte and leaves `txEmpty` true exactly when the
peripheral accepted the byte or its write returned an error; without
write capability the controller state is unchanged. -/
theorem claim_C7_data_write (a : Acia6551) (data : Nat) (presp : WriteResult) :
    ((a.capabilities &&& Write) = Write →
      (a.txWrite data presp).txEmpty = (presp.written || presp.err) ∧
      (a.txWrite data presp).tx = data) ∧
    ((a.capabilities &&& Write) ≠ Write → a.txWrite data presp = a) := by
  constructor
  · intro h
    constructor <;> simp [Acia6551.txWrite, h]
  · intro h
    simp [Acia6551.txWrite, h]

theorem claim_C7_witness :
    ((aciaWr.txWrite 7 ⟨false, true⟩).txEmpty = true ∧
     (aciaWr.txWrite 7 ⟨false, true⟩).tx = 7) ∧
    aciaNoCap.txWrite 7 ⟨true, false⟩ = aciaNoCap := by
  constructor
  · exact (claim_C7_data_write aciaWr 7 ⟨false, true⟩).1 rfl
  · exact (claim_C7_data_write aciaNoCap 7 ⟨true, false⟩).2 (by decide)

/-- Claim C10: configuring a RAM chip errors exactly when the configured
size is below 1024; any two successful configurations yield the same
fixed RAM device, the size being otherwise ignored. -/
theorem claim_C10_ram_configure (c : RamChip) :
    ((∃ e, c.Configure = .error e) ↔ c.Size < 1024) ∧
    (∀ c2 : RamChip, ¬ c.Size < 1024 → ¬ c2.Size < 1024 →
      c.Configure = c2.Configure) := by
  constructor
  · constructor
    · rintro ⟨e, he⟩
      by_contra h
      simp [RamChip.Configure, h] at he
    · intro h
      exact ⟨"Invalid ram size " ++ toString c.Size, by simp [RamChip.Configure, h]⟩
  · intro c2 h1 h2
    simp [RamChip.Configure, h1, h2]

theorem claim_C10_witness :
    (∃ e, RamChip.Configure ⟨512⟩ = .error e) ∧
    RamChip.Configure ⟨2048⟩ = RamChip.Configure ⟨65535⟩ :=
  ⟨(claim_C10_ram_configure ⟨512⟩).1.2 (by decide),
   (claim_C10_ram_configure ⟨2048⟩).2 ⟨65535⟩ (by decide) (by decide)⟩

/-- Claim C1 (code-bug evidence): in `Machine.Run`'s interleaving
semantics there is a run in which the halt value is delivered on the exit
channel and the run loop nevertheless issues a further `cpu.Step()`: the
loop's unsynchronized `running` check can run between the channel
rendezvous and the observer goroutine's `running = false` write. -/
theorem claim_C1_step_after_halt_delivery :
    RunTrans runInit { runInit with sent := true } ∧
    RunTrans { runInit with sent := true } { runInit with sent := true, steps := 1 } := by
  constructor
  · exact RunTrans.deliver runInit rfl
  · exact RunTrans.stepLoop { runInit with sent := true } rfl rfl

/-- Claim C4: whenever `next` is issued, a breakpoint is installed at
`PC + instruction byte length` (taken before execution), enabled, with the
free-run flag set — for every debugger state and every instruction. -/
theorem claim_C4_next_installs_breakpoint (d : Debugger) (inst : Instruction)
    (h : inst.Bytes < 65536) :
    (d.commandNext inst).breakAddress = true ∧
    (d.commandNext inst).breakAddressValue = (d.cpu.PC + inst.Bytes) % 65536 ∧
    (d.commandNext inst).run = true := by
  refine ⟨rfl, ?_, rfl⟩
  show (d.cpu.PC + inst.Bytes % 65536) % 65536 = (d.cpu.PC + inst.Bytes) % 65536
  rw [Nat.mod_eq_of_lt h]

theorem claim_C4_witness :
    (dInit.commandNext ⟨"JSR", 3⟩).breakAddress = true ∧
    (dInit.commandNext ⟨"JSR", 3⟩).breakAddressValue = (dInit.cpu.PC + 3) % 65536 ∧
    (dInit.commandNext ⟨"JSR", 3⟩).run = true :=
  claim_C4_next_installs_breakpoint dInit ⟨"JSR", 3⟩ (by decide)

/-- Claim C3 counterexample: `next` at PC 0x1000 on a 3-byte instruction
installs a breakpoint at 0x1003; the first pass over 0x1003 fires it
(`run` becomes false) but leaves it installed (`breakAddress` still
true), and after a `continue` a second pass over 0x1003 fires it again —
it is not one-shot. -/
theorem claim_C3_counterexample :
    dFire1.run = false ∧ dFire1.breakAddress = true ∧
    dFire1.breakAddressValue = 4099 ∧ dFire2.run = false :=
  ⟨rfl, rfl, rfl, rfl⟩

/-- Claim C3 (amended): the address breakpoint installed by `next` is
persistent, not one-shot: the breakpoint check never disables it or
changes its address, and whenever it is enabled and PC equals its
address, it fires (clearing the free-run flag) — on every pass. -/
theorem claim_C3_amended_breakpoint_persists (d : Debugger) (inst : Instruction) :
    (d.doBreakpoints inst).breakAddress = d.breakAddress ∧
    (d.doBreakpoints inst).breakAddressValue = d.breakAddressValue ∧
    (d.breakAddress = true → d.cpu.PC = d.breakAddressValue →
      (d.doBreakpoints inst).run = false) := by
  refine ⟨?_, ?_, ?_⟩
  · simp only [Debugger.doBreakpoints]
    rw [checkReg_breakAddress, checkReg_breakAddress, checkReg_breakAddress]
    split <;> split <;> rfl
  · simp only [Debugger.doBreakpoints]
    rw [checkReg_breakAddressValue, checkReg_breakAddressValue, checkReg_breakAddressValue]
    split <;> split <;> rfl
  · intro hba hpc
    simp only [Debugger.doBreakpoints]
    apply checkReg_run_false
    apply checkReg_run_false
    apply checkReg_run_false
    split <;> split
    · rfl
    · rename_i hcond
      exact absurd (by simp [hba, hpc]) hcond
    · rfl
    · rename_i hcond
      exact absurd (by simp [hba, hpc]) hcond

theorem claim_C3_amended_witness :
    (dStepOver.doBreakpoints ⟨"LDA", 2⟩).breakAddress = dStepOver.breakAddress ∧
    (dFire1.run = false) := by
  constructor
  · exact (claim_C3_amended_breakpoint_persists dStepOver ⟨"LDA", 2⟩).1
  · exact (claim_C3_amended_breakpoint_persists
      { dStepOver with cpu := { dStepOver.cpu with PC := 4099 } } ⟨"LDA", 2⟩).2.2 rfl rfl

/-- Claim C2 (code-bug evidence): an unparseable numeric argument or an
ambiguous symbol given to `break-address` makes the command handler
panic — the error escapes the command loop instead of being reported and
re-prompted — while an unknown command is indeed handled locally
(`Invalid command.` and a normal return to the prompt loop), and so is a
bad argument to `break-register`. -/
theorem claim_C2_parse_errors_panic :
    dInit.commandLoopStep ⟨"LDA", 2⟩ (mkCmd "ba zzz") =
      .panicked (.err (.num .invalid)) ∧
    dInit.commandLoopStep ⟨"LDA", 2⟩ (mkCmd "ba $fffff") =
      .panicked (.err (.num .range)) ∧
    dSym.commandLoopStep ⟨"LDA", 2⟩ (mkCmd "ba amb") =
      .panicked (.err (.ambiguous "amb" [1, 2])) ∧
    dInit.commandLoopStep ⟨"LDA", 2⟩ (mkCmd "br x notanumber") =
      .panicked (.err (.num .invalid)) ∧
    dInit.commandLoopStep ⟨"LDA", 2⟩ (mkCmd "bogus") = .normal dInit false :=
  ⟨rfl, rfl, rfl, rfl, rfl⟩

theorem digitsVal_le (base : Nat) (hb : 1 ≤ base) :
    ∀ (ds : List Nat) (n : Nat), n ≤ digitsVal base ds n
  | [], n => Nat.le_refl n
  | c :: cs, n => by
    have h1 : n ≤ n * base + (goDigitVal c).getD 0 :=
      Nat.le_trans (Nat.le_mul_of_pos_right n hb) (Nat.le_add_right _ _)
    exact Nat.le_trans h1 (digitsVal_le base hb cs _)

theorem parseDigits_ok (base maxVal : Nat) :
    ∀ (ds : List Nat) (n : Nat),
      (∀ c ∈ ds, isBaseDigit base c = true) →
      digitsVal base ds n ≤ maxVal →
      parseDigits base maxVal ds n false = .ok (digitsVal base ds n, false)
  | [], _, _, _ => rfl
  | c :: cs, n, hall, hle => by
    have hc := hall c (List.mem_cons_self c cs)
    have hex : ∃ dd, goDigitVal c = some dd ∧ dd < base := by
      unfold isBaseDigit at hc
      cases hgd : goDigitVal c with
      | none => rw [hgd] at hc; simp at hc
      | some dd => rw [hgd] at hc; exact ⟨dd, rfl, by simpa using hc⟩
    obtain ⟨dd, hgd, hdd⟩ := hex
    have hb : 1 ≤ base := Nat.lt_of_le_of_lt (Nat.zero_le dd) hdd
    have hc95 : (c == 95) = false := by
      simp only [beq_eq_false_iff_ne, ne_eq]
      intro h
      rw [h] at hgd
      exact Option.noConfusion ((show goDigitVal 95 = none by decide) ▸ hgd)
    have hdv : digitsVal base (c :: cs) n = digitsVal base cs (n * base + dd) := by
      simp [digitsVal, hgd]
    rw [hdv] at hle ⊢
    have hbound : n * base + dd ≤ maxVal :=
      Nat.le_trans (digitsVal_le base hb cs (n * base + dd)) hle
    rw [show parseDigits base maxVal (c :: cs) n false
        = parseDigits base maxVal cs (n * base + dd) false from by
      simp [parseDigits, hc95, hgd, Nat.not_le.mpr hdd, Nat.not_lt.mpr hbound]]
    exact parseDigits_ok base maxVal cs (n * base + dd)
      (fun x hx => hall x (List.mem_cons_of_mem c hx)) hle

theorem isBaseDigit_ne (base c bad : Nat) (hbad : goDigitVal bad = none)
    (h : isBaseDigit base c = true) : c ≠ bad := by
  intro he
  rw [he] at h
  simp [isBaseDigit, hbad] at h

theorem replaceDollar_id (l : List Nat) (h : ∀ c ∈ l, c ≠ 36) :
    replaceDollarOnce l = l := by
  induction l with
  | nil => rfl
  | cons c cs ih =>
    have hc : (c == 36) = false := by
      simp only [beq_eq_false_iff_ne, ne_eq]
      exact h c (List.mem_cons_self c cs)
    simp [replaceDollarOnce, hc, ih fun x hx => h x (List.mem_cons_of_mem c hx)]

theorem goParseUint_hex (ds : List Nat) (hne : ds ≠ [])
    (hd : ∀ c ∈ ds, isBaseDigit 16 c = true)
    (hle : digitsVal 16 ds 0 ≤ 65535) :
    goParseUint (48 :: 120 :: ds) 65535 = .ok (digitsVal 16 ds 0) := by
  obtain ⟨d0, t, rfl⟩ : ∃ d0 t, ds = d0 :: t := by
    cases ds with
    | nil => exact absurd rfl hne
    | cons a b => exact ⟨a, b, rfl⟩
  have hpd := parseDigits_ok 16 65535 (d0 :: t) 0 hd hle
  have hred : goParseUint (48 :: 120 :: d0 :: t) 65535
      = (match parseDigits 16 65535 (d0 :: t) 0 false with
        | .error e => (.error e : Except GoError Nat)
        | .ok (n, us) =>
          if us && !underscoreOK (48 :: 120 :: d0 :: t) then .error .invalid
          else .ok n) := rfl
  rw [hred, hpd]
  rfl

theorem goParseUint_dec (ds : List Nat) (hne : ds ≠ [])
    (hd : ∀ c ∈ ds, isBaseDigit 10 c = true)
    (h0 : ∀ t, ds ≠ 48 :: t)
    (hle : digitsVal 10 ds 0 ≤ 65535) :
    goParseUint ds 65535 = .ok (digitsVal 10 ds 0) := by
  obtain ⟨d0, t, rfl⟩ : ∃ d0 t, ds = d0 :: t := by
    cases ds with
    | nil => exact absurd rfl hne
    | cons a b => exact ⟨a, b, rfl⟩
  have hd0 : (d0 == 48) = false := by
    simp only [beq_eq_false_iff_ne, ne_eq]
    intro h
    exact h0 t (by rw [h])
  have hpd := parseDigits_ok 10 65535 (d0 :: t) 0 hd hle
  simp [goParseUint, hd0, hpd]

/-- Claim C8: `parseUint16` resolves the literal `.` to the current PC; a
symbol with exactly one address to that address; a symbol with several
addresses to an error (no address is picked); and anything resolving to
zero addresses falls through to numeric parsing, which accepts `$hex`,
`0xhex` and decimal forms (digit lists below are character codes; a
decimal literal must not start with `0`, which Go's base-0 parsing treats
as octal). -/
theorem claim_C8_parse_address (d : Debugger) (s : String) :
    (s = "." → d.parseUint16 s = .ok d.cpu.PC) ∧
    (∀ a, d.symbols s = [a] → s ≠ "." → d.parseUint16 s = .ok a) ∧
    (∀ a b l, d.symbols s = a :: b :: l → s ≠ "." →
      d.parseUint16 s = .error (.ambiguous s (a :: b :: l))) ∧
    (d.symbols s = [] → s ≠ "." →
      d.parseUint16 s =
        match goParseUint (replaceDollarOnce (strCodes s)) 65535 with
        | .error e => .error (.num e)
        | .ok n => .ok n) ∧
    (∀ ds, ds ≠ [] → (∀ c ∈ ds, isBaseDigit 16 c = true) →
      digitsVal 16 ds 0 ≤ 65535 →
      goParseUint (replaceDollarOnce (36 :: ds)) 65535 = .ok (digitsVal 16 ds 0)) ∧
    (∀ ds, ds ≠ [] → (∀ c ∈ ds, isBaseDigit 16 c = true) →
      digitsVal 16 ds 0 ≤ 65535 →
      goParseUint (replaceDollarOnce (48 :: 120 :: ds)) 65535 = .ok (digitsVal 16 ds 0)) ∧
    (∀ ds, ds ≠ [] → (∀ c ∈ ds, isBaseDigit 10 c = true) → (∀ t, ds ≠ 48 :: t) →
      digitsVal 10 ds 0 ≤ 65535 →
      goParseUint (replaceDollarOnce ds) 65535 = .ok (digitsVal 10 ds 0)) := by
  refine ⟨?_, ?_, ?_, ?_, ?_, ?_, ?_⟩
  · intro h
    simp [Debugger.parseUint16, h]
  · intro a hsym hne
    simp [Debugger.parseUint16, hne, hsym]
  · intro a b l hsym hne
    simp [Debugger.parseUint16, hne, hsym]
  · intro hsym hne
    simp [Debugger.parseUint16, hne, hsym]
  · intro ds hne hd hle
    rw [show replaceDollarOnce (36 :: ds) = 48 :: 120 :: ds from rfl]
    exact goParseUint_hex ds hne hd hle
  · intro ds hne hd hle
    have h36 : ∀ c ∈ 48 :: 120 :: ds, c ≠ 36 := by
      intro c hc
      simp only [List.mem_cons] at hc
      rcases hc with rfl | rfl | hc
      · decide
      · decide
      · exact isBaseDigit_ne 16 c 36 (by decide) (hd c hc)
    rw [replaceDollar_id _ h36]
    exact goParseUint_hex ds hne hd hle
  · intro ds hne hd h0 hle
    have h36 : ∀ c ∈ ds, c ≠ 36 := fun c hc =>
      isBaseDigit_ne 10 c 36 (by decide) (hd c hc)
    rw [replaceDollar_id _ h36]
    exact goParseUint_dec ds hne hd h0 hle

theorem claim_C8_witness :
    dSym.parseUint16 "." = .ok dSym.cpu.PC ∧
    dSym.parseUint16 "uni" = .ok 7 ∧
    dSym.parseUint16 "amb" = .error (.ambiguous "amb" [1, 2]) ∧
    goParseUint (replaceDollarOnce (36 :: [49, 102])) 65535 = .ok 31 ∧
    goParseUint (replaceDollarOnce (48 :: 120 :: [49, 102])) 65535 = .ok 31 ∧
    goParseUint (replaceDollarOnce [49, 50, 51]) 65535 = .ok 123 :=
  ⟨(claim_C8_parse_address dSym ".").1 rfl,
   (claim_C8_parse_address dSym "uni").2.1 7 rfl (by decide),
   (claim_C8_parse_address dSym "amb").2.2.1 1 2 [] rfl (by decide),
   (claim_C8_parse_address dSym "x").2.2.2.2.1 [49, 102] (by decide) (by decide) (by decide),
   (claim_C8_parse_address dSym "x").2.2.2.2.2.1 [49, 102] (by decide) (by decide) (by decide),
   (claim_C8_parse_address dSym "x").2.2.2.2.2.2 [49, 50, 51] (by decide) (by decide)
     (by intro t h; simp at h) (by decide)⟩
